import Mathlib

/-!
Verification of the quickbuddy container manager (Go sources: commands.go,
cgroups.go, aufs.go, container.go, util.go, limits.go, qb.go).

The embedding is shallow: Go byte/character strings that are inspected
character-wise (status-pipe records, the rendered cgroup byte buffer, the
rlimit argument buffer) are modelled as `List Char`; strings only compared
for equality are Lean `String`s; Go `error` results become `Except`/`Bool`
outcomes; the filesystem is a pair of predicates on paths; write failures on
the command FIFO are an oracle `Nat → Bool` indexed by the write call number.
-/

namespace Quickbuddy

/-! ## Go library models -/

/-- Model of Go `strings.Split(s, " ")` on a character list: splits at every
single space, never collapsing adjacent separators; the empty string yields
one empty field. -/
def goSplitSpace : List Char → List (List Char)
  | [] => [[]]
  | c :: rest =>
    match goSplitSpace rest with
    | [] => [[]]
    | g :: gs => if c = ' ' then [] :: g :: gs else (c :: g) :: gs

/-- Decimal value of a digit string (the value Go `strconv.ParseInt` returns
on a well-formed unsigned decimal input). -/
def digitsVal (ds : List Char) : Nat :=
  ds.foldl (fun a c => a * 10 + (c.toNat - 48)) 0

/-- Model of Go `strconv.ParseInt(s, 10, 64)` with the error discarded, as the
source does (`code, _ := strconv.ParseInt(...)`): the parsed value on
well-formed input and 0 on a syntax error.  The 64-bit range is assumed
(overflow clamping is not modelled). -/
def parseGoInt (cs : List Char) : Int :=
  match cs with
  | [] => 0
  | c :: ds =>
    if c = '+' then (if ds ≠ [] ∧ ds.all Char.isDigit then (digitsVal ds : Int) else 0)
    else if c = '-' then (if ds ≠ [] ∧ ds.all Char.isDigit then -(digitsVal ds : Int) else 0)
    else if (c :: ds).all Char.isDigit then (digitsVal (c :: ds) : Int) else 0

/-! ## Status reader (commands.go, `WaitUntilDone`) -/

/-- The mutable state of the status-reading loop in `WaitUntilDone`
(commands.go lines 359-460). -/
structure StatusState where
  terminated : Bool
  signal_codes : List Int
  exit_code : Int
  pid : Int
  err_occurred : Bool
deriving Repr, DecidableEq

/-- Initial state of `WaitUntilDone`: `exit_code` starts at -1. -/
def initStatus : StatusState := ⟨false, [], -1, 0, false⟩

/-- Processing of one complete line read from the status FIFO, translated
from the body of the read loop of `WaitUntilDone` (commands.go): `kill `,
`exit `, `pid ` and `err`-prefixed lines set `terminated`; `stop `/`cont `
append the parsed signal code; anything else is ignored. -/
def statusStep (st : StatusState) (line : List Char) : StatusState :=
  if ("kill ".toList).isPrefixOf line then
    let st := { st with terminated := true }
    let vals := goSplitSpace line
    if vals.length > 1 then
      { st with signal_codes := st.signal_codes ++ [parseGoInt (vals.getD 1 [])] }
    else st
  else if ("exit ".toList).isPrefixOf line then
    let st := { st with terminated := true }
    let vals := goSplitSpace line
    if vals.length > 1 then
      { st with exit_code := parseGoInt (vals.getD 1 []) }
    else st
  else if ("pid ".toList).isPrefixOf line then
    let st := { st with terminated := true }
    let vals := goSplitSpace line
    if vals.length > 1 then
      { st with pid := parseGoInt (vals.getD 1 []) }
    else st
  else if ("stop ".toList).isPrefixOf line || ("cont ".toList).isPrefixOf line then
    let vals := goSplitSpace line
    if vals.length > 1 then
      { st with signal_codes := st.signal_codes ++ [parseGoInt (vals.getD 1 [])] }
    else st
  else if ("err".toList).isPrefixOf line then
    { st with terminated := true, err_occurred := true }
  else st

/-- The reading loop of `WaitUntilDone` over a stream of complete lines: the
outer `for ; !terminated ;` loop keeps reopening the FIFO and the inner loop
processes every complete line until EOF, so over a finite stream every line is
processed in order.  The loop exits (and the result is delivered) exactly when
`terminated` is set. -/
def WaitUntilDone (lines : List (List Char)) : StatusState :=
  lines.foldl statusStep initStatus

/-- Spec-side predicate: the four terminal record prefixes of the status
pipe wire format. -/
def isTerminalLine (line : List Char) : Bool :=
  ("kill ".toList).isPrefixOf line || ("exit ".toList).isPrefixOf line ||
  ("pid ".toList).isPrefixOf line || ("err".toList).isPrefixOf line

/-! ### Character-list forms of the record prefixes -/

lemma kill_chars : "kill ".toList = ['k', 'i', 'l', 'l', ' '] := rfl

lemma exit_chars : "exit ".toList = ['e', 'x', 'i', 't', ' '] := rfl

lemma pid_chars : "pid ".toList = ['p', 'i', 'd', ' '] := rfl

lemma stop_chars : "stop ".toList = ['s', 't', 'o', 'p', ' '] := rfl

lemma cont_chars : "cont ".toList = ['c', 'o', 'n', 't', ' '] := rfl

lemma err_chars : "err".toList = ['e', 'r', 'r'] := rfl

lemma isPrefixOf_self_append (p t : List Char) : p.isPrefixOf (p ++ t) = true := by
  induction p with
  | nil => simp [List.isPrefixOf]
  | cons c cs ih => simp [List.isPrefixOf, ih]

lemma not_prefix_of_head_ne {a b : Char} (h : a ≠ b) (p t : List Char) :
    ¬ (a :: p) <+: (b :: t) := by
  rintro ⟨u, hu⟩
  rw [List.cons_append] at hu
  injection hu with h1 _
  exact h h1

/-- A line starting with `stop ` or `cont ` starts with `s` or `c`, hence has
none of the four terminal prefixes. -/
lemma stopcont_not_terminal {l : List Char}
    (h : ['s', 't', 'o', 'p', ' '] <+: l ∨ ['c', 'o', 'n', 't', ' '] <+: l) :
    (¬ ['k', 'i', 'l', 'l', ' '] <+: l) ∧ (¬ ['e', 'x', 'i', 't', ' '] <+: l) ∧
    (¬ ['p', 'i', 'd', ' '] <+: l) ∧ (¬ ['e', 'r', 'r'] <+: l) := by
  rcases h with ⟨t, rfl⟩ | ⟨t, rfl⟩ <;>
    exact ⟨not_prefix_of_head_ne (by decide) _ _, not_prefix_of_head_ne (by decide) _ _,
      not_prefix_of_head_ne (by decide) _ _, not_prefix_of_head_ne (by decide) _ _⟩

/-- One step of the status loop sets `terminated` exactly on the four
terminal prefixes. -/
lemma statusStep_terminated (st : StatusState) (l : List Char) :
    (statusStep st l).terminated = (st.terminated || isTerminalLine l) := by
  by_cases hsc : (['s', 't', 'o', 'p', ' '] <+: l ∨ ['c', 'o', 'n', 't', ' '] <+: l)
  · obtain ⟨h1, h2, h3, h4⟩ := stopcont_not_terminal hsc
    simp [statusStep, isTerminalLine, kill_chars, exit_chars, pid_chars, stop_chars,
      cont_chars, err_chars, hsc, h1, h2, h3, h4, apply_ite StatusState.terminated]
  · by_cases hk : ['k', 'i', 'l', 'l', ' '] <+: l
    · simp [statusStep, isTerminalLine, kill_chars, hk, apply_ite StatusState.terminated]
    · by_cases he : ['e', 'x', 'i', 't', ' '] <+: l
      · simp [statusStep, isTerminalLine, kill_chars, exit_chars, hk, he,
          apply_ite StatusState.terminated]
      · by_cases hp : ['p', 'i', 'd', ' '] <+: l
        · simp [statusStep, isTerminalLine, kill_chars, exit_chars, pid_chars, hk, he, hp,
            apply_ite StatusState.terminated]
        · by_cases hr : ['e', 'r', 'r'] <+: l
          · simp [statusStep, isTerminalLine, kill_chars, exit_chars, pid_chars, stop_chars,
              cont_chars, err_chars, hk, he, hp, hsc, hr]
          · simp [statusStep, isTerminalLine, kill_chars, exit_chars, pid_chars, stop_chars,
              cont_chars, err_chars, hk, he, hp, hsc, hr]

lemma foldl_statusStep_terminated (lines : List (List Char)) :
    ∀ st : StatusState,
      (lines.foldl statusStep st).terminated = (st.terminated || lines.any isTerminalLine) := by
  induction lines with
  | nil => intro st; simp
  | cons l rest ih =>
    intro st
    simp [List.foldl_cons, ih, statusStep_terminated, Bool.or_assoc]

lemma goSplitSpace_no_space (ds : List Char) (h : ∀ c ∈ ds, c ≠ ' ') :
    goSplitSpace ds = [ds] := by
  induction ds with
  | nil => rfl
  | cons c t ih =>
    have ht : ∀ x ∈ t, x ≠ ' ' := fun x hx => h x (List.mem_cons_of_mem _ hx)
    have hc : c ≠ ' ' := h c (List.mem_cons_self _ _)
    simp [goSplitSpace, ih ht, hc]

lemma Char.ne_of_isDigit {c : Char} (h : c.isDigit = true) :
    c ≠ ' ' ∧ c ≠ '+' ∧ c ≠ '-' := by
  refine ⟨?_, ?_, ?_⟩ <;> rintro rfl <;> simp [Char.isDigit] at h

lemma parseGoInt_digits {ds : List Char} (hne : ds ≠ []) (hd : ds.all Char.isDigit = true) :
    parseGoInt ds = (digitsVal ds : Int) := by
  cases ds with
  | nil => exact absurd rfl hne
  | cons c t =>
    have hc : c.isDigit = true := by
      have := (List.all_eq_true.mp hd) c (List.mem_cons_self _ _)
      simpa using this
    obtain ⟨-, h2, h3⟩ := Char.ne_of_isDigit hc
    simp [parseGoInt, h2, h3, hd]

lemma statusStep_stop (st : StatusState) {ds : List Char}
    (hne : ds ≠ []) (hd : ds.all Char.isDigit = true) :
    statusStep st ("stop ".toList ++ ds) =
      { st with signal_codes := st.signal_codes ++ [(digitsVal ds : Int)] } := by
  show statusStep st (['s', 't', 'o', 'p', ' '] ++ ds) = _
  have hpre : ['s', 't', 'o', 'p', ' '] <+: (['s', 't', 'o', 'p', ' '] ++ ds) := ⟨ds, rfl⟩
  have hOr : (['s', 't', 'o', 'p', ' '] <+: (['s', 't', 'o', 'p', ' '] ++ ds) ∨
      ['c', 'o', 'n', 't', ' '] <+: (['s', 't', 'o', 'p', ' '] ++ ds)) := Or.inl hpre
  obtain ⟨h1, h2, h3, h4⟩ := stopcont_not_terminal hOr
  have hnosp : ∀ c ∈ ds, c ≠ ' ' := by
    intro c hc
    exact (Char.ne_of_isDigit ((List.all_eq_true.mp hd) c hc)).1
  have hsplit : goSplitSpace ('s' :: 't' :: 'o' :: 'p' :: ' ' :: ds) = [['s', 't', 'o', 'p'], ds] := by
    simp [goSplitSpace, goSplitSpace_no_space ds hnosp]
  simp [statusStep, kill_chars, exit_chars, pid_chars, stop_chars, cont_chars, err_chars,
    h1, h2, h3, h4, hOr, hsplit, parseGoInt_digits hne hd]

lemma statusStep_cont (st : StatusState) {ds : List Char}
    (hne : ds ≠ []) (hd : ds.all Char.isDigit = true) :
    statusStep st ("cont ".toList ++ ds) =
      { st with signal_codes := st.signal_codes ++ [(digitsVal ds : Int)] } := by
  show statusStep st (['c', 'o', 'n', 't', ' '] ++ ds) = _
  have hpre : ['c', 'o', 'n', 't', ' '] <+: (['c', 'o', 'n', 't', ' '] ++ ds) := ⟨ds, rfl⟩
  have hOr : (['s', 't', 'o', 'p', ' '] <+: (['c', 'o', 'n', 't', ' '] ++ ds) ∨
      ['c', 'o', 'n', 't', ' '] <+: (['c', 'o', 'n', 't', ' '] ++ ds)) := Or.inr hpre
  obtain ⟨h1, h2, h3, h4⟩ := stopcont_not_terminal hOr
  have hnosp : ∀ c ∈ ds, c ≠ ' ' := by
    intro c hc
    exact (Char.ne_of_isDigit ((List.all_eq_true.mp hd) c hc)).1
  have hsplit : goSplitSpace ('c' :: 'o' :: 'n' :: 't' :: ' ' :: ds) = [['c', 'o', 'n', 't'], ds] := by
    simp [goSplitSpace, goSplitSpace_no_space ds hnosp]
  simp [statusStep, kill_chars, exit_chars, pid_chars, stop_chars, cont_chars, err_chars,
    h1, h2, h3, h4, hOr, hsplit, parseGoInt_digits hne hd]

lemma statusStep_exit (st : StatusState) {ds : List Char}
    (hne : ds ≠ []) (hd : ds.all Char.isDigit = true) :
    statusStep st ("exit ".toList ++ ds) =
      { st with terminated := true, exit_code := (digitsVal ds : Int) } := by
  show statusStep st (['e', 'x', 'i', 't', ' '] ++ ds) = _
  have hpre : ['e', 'x', 'i', 't', ' '] <+: (['e', 'x', 'i', 't', ' '] ++ ds) := ⟨ds, rfl⟩
  have hkill : ¬ ['k', 'i', 'l', 'l', ' '] <+: (['e', 'x', 'i', 't', ' '] ++ ds) :=
    not_prefix_of_head_ne (by decide) _ _
  have hnosp : ∀ c ∈ ds, c ≠ ' ' := by
    intro c hc
    exact (Char.ne_of_isDigit ((List.all_eq_true.mp hd) c hc)).1
  have hsplit : goSplitSpace ('e' :: 'x' :: 'i' :: 't' :: ' ' :: ds) = [['e', 'x', 'i', 't'], ds] := by
    simp [goSplitSpace, goSplitSpace_no_space ds hnosp]
  simp [statusStep, kill_chars, exit_chars, hkill, hpre, hsplit, parseGoInt_digits hne hd]

lemma statusStep_other (st : StatusState) (l : List Char)
    (h1 : isTerminalLine l = false)
    (h2 : ("stop ".toList).isPrefixOf l = false)
    (h3 : ("cont ".toList).isPrefixOf l = false) :
    statusStep st l = st := by
  simp only [isTerminalLine, kill_chars, exit_chars, pid_chars, err_chars,
    Bool.or_eq_false_iff] at h1
  obtain ⟨⟨⟨hk, he⟩, hp⟩, hr⟩ := h1
  rw [stop_chars] at h2
  rw [cont_chars] at h3
  simp [statusStep, kill_chars, exit_chars, pid_chars, stop_chars, cont_chars, err_chars,
    hk, he, hp, hr, h2, h3]

lemma statusStep_preserves_exit_code (st : StatusState) {l : List Char}
    (h : ("exit ".toList).isPrefixOf l = false) :
    (statusStep st l).exit_code = st.exit_code := by
  have he : ¬ ['e', 'x', 'i', 't', ' '] <+: l := by
    intro hx
    rw [exit_chars] at h
    rw [← List.isPrefixOf_iff_prefix] at hx
    simp [h] at hx
  by_cases hk : ['k', 'i', 'l', 'l', ' '] <+: l
  · simp [statusStep, kill_chars, hk, apply_ite StatusState.exit_code]
  · by_cases hp : ['p', 'i', 'd', ' '] <+: l
    · simp [statusStep, kill_chars, exit_chars, pid_chars, hk, he, hp,
        apply_ite StatusState.exit_code]
    · by_cases hsc : (['s', 't', 'o', 'p', ' '] <+: l ∨ ['c', 'o', 'n', 't', ' '] <+: l)
      · simp [statusStep, kill_chars, exit_chars, pid_chars, stop_chars, cont_chars, hk, he,
          hp, hsc, apply_ite StatusState.exit_code]
      · by_cases hr : ['e', 'r', 'r'] <+: l
        · simp [statusStep, kill_chars, exit_chars, pid_chars, stop_chars, cont_chars,
            err_chars, hk, he, hp, hsc, hr]
        · simp [statusStep, kill_chars, exit_chars, pid_chars, stop_chars, cont_chars,
            err_chars, hk, he, hp, hsc, hr]

lemma foldl_preserves_exit_code (lines : List (List Char)) :
    ∀ st : StatusState, (∀ l ∈ lines, ("exit ".toList).isPrefixOf l = false) →
      (lines.foldl statusStep st).exit_code = st.exit_code := by
  induction lines with
  | nil => intro st _; rfl
  | cons l rest ih =>
    intro st h
    rw [List.foldl_cons, ih _ (fun x hx => h x (List.mem_cons_of_mem _ hx)),
      statusStep_preserves_exit_code st (h l (List.mem_cons_self _ _))]

/-- C1: the status reader terminates exactly when it reads a complete line
whose prefix is `kill `, `exit `, `pid ` or `err`; `stop N`/`cont N` lines are
non-terminal and append their integer argument to `signal_codes`; lines with
any other prefix are ignored without terminating the reader. -/
theorem waitUntilDone_terminal_behavior :
    (∀ lines : List (List Char),
        ((WaitUntilDone lines).terminated = true ↔ ∃ l ∈ lines, isTerminalLine l = true))
    ∧ (∀ (st : StatusState) (ds : List Char), ds ≠ [] → ds.all Char.isDigit = true →
        statusStep st ("stop ".toList ++ ds) =
            { st with signal_codes := st.signal_codes ++ [(digitsVal ds : Int)] }
        ∧ statusStep st ("cont ".toList ++ ds) =
            { st with signal_codes := st.signal_codes ++ [(digitsVal ds : Int)] })
    ∧ (∀ (st : StatusState) (l : List Char), isTerminalLine l = false →
        ("stop ".toList).isPrefixOf l = false → ("cont ".toList).isPrefixOf l = false →
        statusStep st l = st) := by
  refine ⟨?_, ?_, ?_⟩
  · intro lines
    rw [WaitUntilDone, foldl_statusStep_terminated lines initStatus]
    simp [initStatus, List.any_eq_true]
  · intro st ds h1 h2
    exact ⟨statusStep_stop st h1 h2, statusStep_cont st h1 h2⟩
  · exact statusStep_other

/-- Witness for C1: instantiates the hypotheses of
`waitUntilDone_terminal_behavior` at concrete inputs. -/
theorem waitUntilDone_terminal_behavior_witness :
    ((['5'] : List Char) ≠ [] ∧ ['5'].all Char.isDigit = true) ∧
    (statusStep initStatus ("stop ".toList ++ ['5']) =
        { initStatus with signal_codes := initStatus.signal_codes ++ [(digitsVal ['5'] : Int)] }
      ∧ statusStep initStatus ("cont ".toList ++ ['5']) =
        { initStatus with
            signal_codes := initStatus.signal_codes ++ [(digitsVal ['5'] : Int)] }) ∧
    (isTerminalLine "foo".toList = false ∧
      statusStep initStatus "foo".toList = initStatus) :=
  ⟨⟨by decide, by decide⟩,
    waitUntilDone_terminal_behavior.2.1 initStatus ['5'] (by decide) (by decide),
    by decide,
    waitUntilDone_terminal_behavior.2.2 initStatus ("foo".toList) (by decide) (by decide)
      (by decide)⟩

/-- C2: `exit_code` stays -1 whenever no `exit `-prefixed record occurs in the
stream (in particular when the terminal record is `kill N`), and equals `N`
whenever the stream ends with the terminal record `exit N`. -/
theorem waitUntilDone_exit_code_semantics :
    (∀ lines : List (List Char),
        (∀ l ∈ lines, ("exit ".toList).isPrefixOf l = false) →
        (WaitUntilDone lines).exit_code = -1)
    ∧ (∀ (lines : List (List Char)) (ds : List Char), ds ≠ [] → ds.all Char.isDigit = true →
        (WaitUntilDone (lines ++ ["exit ".toList ++ ds])).exit_code = (digitsVal ds : Int)) := by
  constructor
  · intro lines h
    rw [WaitUntilDone, foldl_preserves_exit_code lines initStatus h]
    rfl
  · intro lines ds h1 h2
    rw [WaitUntilDone, List.foldl_append, List.foldl_cons, List.foldl_nil,
      statusStep_exit _ h1 h2]

/-- Witness for C2: a `kill`-terminated stream has exit code -1 and an
`exit 7`-terminated stream has exit code 7. -/
theorem waitUntilDone_exit_code_semantics_witness :
    (∀ l ∈ [("kill 9".toList)], ("exit ".toList).isPrefixOf l = false) ∧
    (WaitUntilDone [("kill 9".toList)]).exit_code = -1 ∧
    (WaitUntilDone ([] ++ ["exit ".toList ++ ['7']])).exit_code = (digitsVal ['7'] : Int) :=
  ⟨by decide, waitUntilDone_exit_code_semantics.1 _ (by decide),
    waitUntilDone_exit_code_semantics.2 [] ['7'] (by decide) (by decide)⟩

/-! ## Client frame writer
(commands.go, `ExecuteDaemonOnServerWithCallback`, lines 248-354)

Writes to the command FIFO are modelled through an oracle `fails : Nat → Bool`
indexed by the write call number: `fails i = true` means the `i`-th
`fmt.Fprintf` to the pipe returns an error (and then writes nothing).
`attempted` records every line handed to a write call, `written` the lines
actually written. -/

/-- The frame terminator (commands.go). -/
def SENTINEL : String := "-*-EOFENDEOFEND-*-"

structure WriteState where
  idx : Nat
  attempted : List String
  written : List String
deriving Repr, DecidableEq

/-- One `fmt.Fprintf(file, ...)` call: bumps the call counter, records the
attempt, and reports the oracle's verdict as the Go `err` value. -/
def writeLine (fails : Nat → Bool) (s : WriteState) (l : String) : WriteState × Bool :=
  (⟨s.idx + 1, s.attempted ++ [l],
    if fails s.idx then s.written else s.written ++ [l]⟩, fails s.idx)

/-- The argv-token loop of `ExecuteDaemonOnServerWithCallback` followed by
the sentinel write (commands.go lines 322-335).  On a token write error the
code writes the sentinel and returns `err`, where `err` has just been
reassigned to the sentinel write's result; on success the sentinel write's
error is overwritten by the (modelled as successful) `Flock(LOCK_UN)` and the
function continues without error. -/
def writeArgs (fails : Nat → Bool) : WriteState → List String → WriteState × Bool
  | s, [] =>
      let r := writeLine fails s SENTINEL
      (r.1, false)
  | s, a :: rest =>
      let r := writeLine fails s a
      if r.2 then
        let r2 := writeLine fails r.1 SENTINEL
        (r2.1, r2.2)
      else writeArgs fails r.1 rest

/-- The frame-writing section of `ExecuteDaemonOnServerWithCallback`
(commands.go lines 288-335), entered after the lock is acquired.  `arg0` is
`args[0]`, `rest` the remaining argv tokens; `cbPresent` models
`callback != nil`; `stdout_fn`/`stderr_fn` are the capture file names ("" when
absent) and `statusArg`/`stdoutArg`/`stderrArg` the in-container path strings
written after `-s`/`-o`/`-e`.  The Go `err` variable is overwritten by every
tracked write; it is checked once after the header block (the `--` write is
untracked), and once per argv-token write. -/
def writeFrame (fails : Nat → Bool) (arg0 : String) (rest : List String)
    (cbPresent : Bool) (stdout_fn stderr_fn : String)
    (statusArg stdoutArg stderrArg : String) : WriteState × Bool :=
  let s0 : WriteState := ⟨0, [], []⟩
  if arg0 ≠ "@restart" ∧ arg0 ≠ "@exit" ∧ arg0 ≠ "@alive" then
    let r := writeLine fails s0 "iexec"
    let r :=
      if cbPresent then
        let r1 := writeLine fails r.1 "-s"
        let r2 := writeLine fails r1.1 statusArg
        let r3 :=
          if stdout_fn ≠ "" then
            let ro := writeLine fails r2.1 "-o"
            writeLine fails ro.1 stdoutArg
          else r2
        let r4 :=
          if stderr_fn ≠ "" then
            let re := writeLine fails r3.1 "-e"
            writeLine fails re.1 stderrArg
          else r3
        let rdash := writeLine fails r4.1 "--"
        (rdash.1, r4.2)
      else r
    if r.2 then (r.1, true)
    else writeArgs fails r.1 (arg0 :: rest)
  else
    writeArgs fails s0 (arg0 :: rest)

/-- Spec-side: the index of the write whose error value survives to the
single post-header `if err != nil` check (the last tracked header write). -/
def checkedIdx (cbPresent : Bool) (stdout_fn stderr_fn : String) : Nat :=
  if cbPresent then
    if stderr_fn ≠ "" then (if stdout_fn ≠ "" then 6 else 4)
    else if stdout_fn ≠ "" then 4 else 2
  else 0

/-- Spec-side: the header lines emitted before the argv tokens for a
non-control-verb frame. -/
def headerLines (cbPresent : Bool) (stdout_fn stderr_fn : String)
    (statusArg stdoutArg stderrArg : String) : List String :=
  if cbPresent then
    ["iexec", "-s", statusArg] ++ (if stdout_fn ≠ "" then ["-o", stdoutArg] else [])
      ++ (if stderr_fn ≠ "" then ["-e", stderrArg] else []) ++ ["--"]
  else ["iexec"]

lemma writeArgs_noFail (args : List String) :
    ∀ s : WriteState, writeArgs (fun _ => false) s args =
      (⟨s.idx + args.length + 1, s.attempted ++ args ++ [SENTINEL],
        s.written ++ args ++ [SENTINEL]⟩, false) := by
  induction args with
  | nil => intro s; simp [writeArgs, writeLine]
  | cons a rest ih =>
    intro s
    rw [writeArgs]
    simp only [writeLine, Bool.false_eq_true, if_false, ite_false]
    rw [ih]
    simp [List.append_assoc]
    omega

/-- Whenever the argv loop is reached, its last write attempt is the
sentinel, in the all-tokens-written path and in the abort-on-error path
alike. -/
lemma writeArgs_attempted (fails : Nat → Bool) (args : List String) :
    ∀ s : WriteState, ∃ pre,
      (writeArgs fails s args).1.attempted = s.attempted ++ pre ++ [SENTINEL] := by
  induction args with
  | nil =>
    intro s
    exact ⟨[], by simp [writeArgs, writeLine]⟩
  | cons a rest ih =>
    intro s
    by_cases hf : fails s.idx
    · refine ⟨[a], ?_⟩
      simp [writeArgs, writeLine, hf, List.append_assoc]
    · obtain ⟨pre, hpre⟩ :=
        ih ⟨s.idx + 1, s.attempted ++ [a], s.written ++ [a]⟩
      refine ⟨a :: pre, ?_⟩
      simp only [writeArgs, writeLine, hf, Bool.false_eq_true, if_false, ite_false]
      rw [hpre]
      simp [List.append_assoc]

lemma writeFrame_header_err (fails : Nat → Bool) (arg0 : String) (rest : List String)
    (cb : Bool) (so se sa soa sea : String)
    (hctrl : arg0 ≠ "@restart" ∧ arg0 ≠ "@exit" ∧ arg0 ≠ "@alive")
    (hf : fails (checkedIdx cb so se) = true) :
    (writeFrame fails arg0 rest cb so se sa soa sea).2 = true ∧
    (writeFrame fails arg0 rest cb so se sa soa sea).1.attempted =
      headerLines cb so se sa soa sea := by
  cases cb
  · simp only [checkedIdx] at hf
    simp at hf
    simp [writeFrame, writeLine, headerLines, hctrl.1, hctrl.2.1, hctrl.2.2, hf]
  · by_cases hso : so ≠ "" <;> by_cases hse : se ≠ "" <;>
      simp [checkedIdx, hso, hse] at hf <;>
      simp [writeFrame, writeLine, headerLines, hctrl.1, hctrl.2.1, hctrl.2.2, hso, hse, hf]

lemma exists_sentinel_of_writeArgs (fails : Nat → Bool) (args : List String)
    (s : WriteState) :
    ∃ pre, (writeArgs fails s args).1.attempted = pre ++ [SENTINEL] := by
  obtain ⟨pre, hpre⟩ := writeArgs_attempted fails args s
  exact ⟨s.attempted ++ pre, by rw [hpre, List.append_assoc]⟩

lemma writeFrame_ok_attempted (fails : Nat → Bool) (arg0 : String) (rest : List String)
    (cb : Bool) (so se sa soa sea : String)
    (hctrl : arg0 ≠ "@restart" ∧ arg0 ≠ "@exit" ∧ arg0 ≠ "@alive")
    (hf : fails (checkedIdx cb so se) = false) :
    ∃ pre, (writeFrame fails arg0 rest cb so se sa soa sea).1.attempted =
      pre ++ [SENTINEL] := by
  cases cb
  · simp only [checkedIdx] at hf
    simp at hf
    simp [writeFrame, writeLine, hctrl.1, hctrl.2.1, hctrl.2.2, hf]
    exact exists_sentinel_of_writeArgs fails (arg0 :: rest) _
  · by_cases hso : so ≠ "" <;> by_cases hse : se ≠ ""
    all_goals
      simp [checkedIdx, hso, hse] at hf
      simp [writeFrame, writeLine, hctrl.1, hctrl.2.1, hctrl.2.2, hso, hse, hf]
      exact exists_sentinel_of_writeArgs fails (arg0 :: rest) _

lemma SENTINEL_not_mem_headerLines (cb : Bool) (so se sa soa sea : String)
    (hS : sa ≠ SENTINEL) (hO : soa ≠ SENTINEL) (hE : sea ≠ SENTINEL) :
    SENTINEL ∉ headerLines cb so se sa soa sea := by
  have hS' : ¬("-*-EOFENDEOFEND-*-" : String) = sa := fun h => hS h.symm
  have hO' : ¬("-*-EOFENDEOFEND-*-" : String) = soa := fun h => hO h.symm
  have hE' : ¬("-*-EOFENDEOFEND-*-" : String) = sea := fun h => hE h.symm
  cases cb <;> by_cases hso : so ≠ "" <;> by_cases hse : se ≠ "" <;>
    simp [headerLines, hso, hse, SENTINEL] <;>
    first
      | exact ⟨hS', hO', hE'⟩
      | exact ⟨hS', hO'⟩
      | exact ⟨hS', hE'⟩
      | exact hS'

/-- C3 counterexample: when the first argv token is the control verb `@exit`
but a second token follows, the frame written contains both tokens before the
sentinel, not the single control-verb line alone. -/
theorem control_verb_frame_counterexample :
    (writeFrame (fun _ => false) "@exit" ["x"] false "" "" "" "" "").1.written
        = ["@exit", "x", SENTINEL]
    ∧ (["@exit", "x", SENTINEL] : List String) ≠ ["@exit", SENTINEL] := by
  constructor
  · decide
  · decide

/-- C3 (amended): when the first argv token is `@exit`, `@restart` or
`@alive`, the frame consists of exactly the argv token lines followed by the
sentinel — no `iexec` header and no `-s`/`-o`/`-e` lines — for every callback
configuration; with a single-token argv this is the verb line plus the
sentinel. -/
theorem control_verb_frame :
    ∀ (arg0 : String) (rest : List String) (cbPresent : Bool)
      (stdout_fn stderr_fn statusArg stdoutArg stderrArg : String),
      (arg0 = "@exit" ∨ arg0 = "@restart" ∨ arg0 = "@alive") →
      writeFrame (fun _ => false) arg0 rest cbPresent stdout_fn stderr_fn
          statusArg stdoutArg stderrArg
        = (⟨rest.length + 2, (arg0 :: rest) ++ [SENTINEL], (arg0 :: rest) ++ [SENTINEL]⟩,
            false) := by
  intro arg0 rest cb so se sa soa sea h
  have hcond : ¬(arg0 ≠ "@restart" ∧ arg0 ≠ "@exit" ∧ arg0 ≠ "@alive") := by
    rcases h with rfl | rfl | rfl <;> simp
  unfold writeFrame
  rw [if_neg hcond, writeArgs_noFail]
  simp

/-- Witness for C3 (amended), at `@alive` with a full callback
configuration. -/
theorem control_verb_frame_witness :
    (("@alive" : String) = "@exit" ∨ ("@alive" : String) = "@restart" ∨
      ("@alive" : String) = "@alive") ∧
    writeFrame (fun _ => false) "@alive" [] true "so" "se" "s" "o" "e"
      = (⟨2, ["@alive", SENTINEL], ["@alive", SENTINEL]⟩, false) :=
  ⟨Or.inr (Or.inr rfl), by
    have h := control_verb_frame "@alive" [] true "so" "se" "s" "o" "e"
      (Or.inr (Or.inr rfl))
    simpa using h⟩

/-- C5 counterexample: a failure of the status-path write (write call 2) with
callback present and no capture files is detected at the single post-header
error check; the client returns the error without ever attempting a sentinel
write. -/
theorem frame_error_sentinel_counterexample :
    (writeFrame (fun i => i == 2) "a" [] true "" "" "S" "O" "E").2 = true
    ∧ SENTINEL ∉ (writeFrame (fun i => i == 2) "a" [] true "" "" "S" "O" "E").1.attempted := by
  constructor
  · decide
  · decide

/-- C5 (amended): only argv-token write failures trigger the sentinel
attempt.  Whenever the client reaches the argv-writing phase — a control-verb
frame, or a header whose checked write succeeded — its write sequence ends
with a sentinel attempt (after the last token, or right after a failing
token); but when the write whose error survives to the post-header check
fails, the client returns the error without attempting the sentinel. -/
theorem frame_write_failure_sentinel :
    ∀ (fails : Nat → Bool) (arg0 : String) (rest : List String) (cbPresent : Bool)
      (stdout_fn stderr_fn statusArg stdoutArg stderrArg : String),
      statusArg ≠ SENTINEL → stdoutArg ≠ SENTINEL → stderrArg ≠ SENTINEL →
      ((((arg0 ≠ "@restart" ∧ arg0 ≠ "@exit" ∧ arg0 ≠ "@alive") ∧
          fails (checkedIdx cbPresent stdout_fn stderr_fn) = true) →
        (writeFrame fails arg0 rest cbPresent stdout_fn stderr_fn statusArg stdoutArg
            stderrArg).2 = true ∧
        SENTINEL ∉ (writeFrame fails arg0 rest cbPresent stdout_fn stderr_fn statusArg
            stdoutArg stderrArg).1.attempted)
      ∧ (¬((arg0 ≠ "@restart" ∧ arg0 ≠ "@exit" ∧ arg0 ≠ "@alive") ∧
            fails (checkedIdx cbPresent stdout_fn stderr_fn) = true) →
        ∃ pre, (writeFrame fails arg0 rest cbPresent stdout_fn stderr_fn statusArg
            stdoutArg stderrArg).1.attempted = pre ++ [SENTINEL])) := by
  intro fails arg0 rest cb so se sa soa sea hS hO hE
  by_cases hctrl : (arg0 ≠ "@restart" ∧ arg0 ≠ "@exit" ∧ arg0 ≠ "@alive")
  · by_cases hf : fails (checkedIdx cb so se) = true
    · obtain ⟨he, ha⟩ := writeFrame_header_err fails arg0 rest cb so se sa soa sea hctrl hf
      refine ⟨fun _ => ⟨he, ?_⟩, fun hnot => absurd ⟨hctrl, hf⟩ hnot⟩
      rw [ha]
      exact SENTINEL_not_mem_headerLines cb so se sa soa sea hS hO hE
    · have hf' : fails (checkedIdx cb so se) = false := Bool.eq_false_iff.mpr hf
      refine ⟨fun hcontra => absurd hcontra.2 hf, fun _ => ?_⟩
      exact writeFrame_ok_attempted fails arg0 rest cb so se sa soa sea hctrl hf'
  · refine ⟨fun hcontra => absurd hcontra.1 hctrl, fun _ => ?_⟩
    unfold writeFrame
    rw [if_neg hctrl]
    exact exists_sentinel_of_writeArgs fails (arg0 :: rest) _

/-- Witness for C5 (amended): the header-failure case at a concrete failing
oracle and the sentinel case at an all-successful oracle. -/
theorem frame_write_failure_sentinel_witness :
    (("S" : String) ≠ SENTINEL ∧ ("O" : String) ≠ SENTINEL ∧ ("E" : String) ≠ SENTINEL) ∧
    ((writeFrame (fun i => i == 2) "a" [] true "" "" "S" "O" "E").2 = true ∧
      SENTINEL ∉ (writeFrame (fun i => i == 2) "a" [] true "" "" "S" "O" "E").1.attempted) ∧
    (∃ pre, (writeFrame (fun _ => false) "b" [] false "" "" "S" "O" "E").1.attempted
        = pre ++ [SENTINEL]) :=
  ⟨⟨by decide, by decide, by decide⟩,
    (frame_write_failure_sentinel (fun i => i == 2) "a" [] true "" "" "S" "O" "E"
        (by decide) (by decide) (by decide)).1 ⟨⟨by decide, by decide, by decide⟩, by decide⟩,
    (frame_write_failure_sentinel (fun _ => false) "b" [] false "" "" "S" "O" "E"
        (by decide) (by decide) (by decide)).2 (by decide)⟩

/-! ## Client lock acquisition
(commands.go, `ExecuteDaemonOnServerWithCallback`, lines 247-287)

The outcome of each `syscall.Flock` attempt is an oracle `flock : Nat →
FlockRes` indexed by the attempt number; re-opening the FIFO on retry is
assumed to succeed. -/

inductive FlockRes
  | ok | wouldblock | ebadf | eintr | enolck | other
deriving DecidableEq, Repr

inductive ClientErr
  | contended | badf | interrupted | nolck | otherErr | writeErr
deriving DecidableEq, Repr

/-- The `try_again` lock loop: under `ClientNonBlocking` an `EWOULDBLOCK`
returns the contention error at once; under blocking mode it retries
(`goto try_again`); the other errno values map to their own errors.  `fuel`
bounds the number of modelled attempts: `none` means the client is still
retrying (the real loop blocks unboundedly). -/
def acquireLock (flock : Nat → FlockRes) (nonblocking : Bool) :
    Nat → Nat → Option (Except ClientErr Nat)
  | _, 0 => none
  | attempt, fuel + 1 =>
    match flock attempt with
    | .ok => some (.ok attempt)
    | .wouldblock =>
        if nonblocking then some (.error .contended)
        else acquireLock flock nonblocking (attempt + 1) fuel
    | .ebadf => some (.error .badf)
    | .eintr => some (.error .interrupted)
    | .enolck => some (.error .nolck)
    | .other => some (.error .otherErr)

/-- Lock acquisition followed by the frame write (commands.go lines 247-335):
returns the list of lines actually written to the FIFO together with the
error outcome (`none` in the fuel-exhausted still-blocking case). -/
def clientWrite (flock : Nat → FlockRes) (nonblocking : Bool) (fails : Nat → Bool)
    (arg0 : String) (rest : List String) (cbPresent : Bool)
    (stdout_fn stderr_fn statusArg stdoutArg stderrArg : String) (fuel : Nat) :
    Option (List String × Option ClientErr) :=
  match acquireLock flock nonblocking 0 fuel with
  | none => none
  | some (.error e) => some ([], some e)
  | some (.ok _) =>
      let r := writeFrame fails arg0 rest cbPresent stdout_fn stderr_fn statusArg
        stdoutArg stderrArg
      some (r.1.written, if r.2 then some .writeErr else none)

lemma acquireLock_blocking_ne_contended (flock : Nat → FlockRes) :
    ∀ (fuel attempt : Nat),
      acquireLock flock false attempt fuel ≠ some (.error .contended) := by
  intro fuel
  induction fuel with
  | zero => intro attempt h; exact Option.noConfusion h
  | succ n ih =>
    intro attempt
    rw [acquireLock]
    cases flock attempt <;> simp
    exact ih (attempt + 1)

lemma acquireLock_retries (flock : Nat → FlockRes) :
    ∀ (d a fuel : Nat), (∀ k, k < d → flock (a + k) = .wouldblock) →
      flock (a + d) = .ok → d < fuel →
      acquireLock flock false a fuel = some (.ok (a + d)) := by
  intro d
  induction d with
  | zero =>
    intro a fuel hblock hok hfuel
    cases fuel with
    | zero => omega
    | succ n =>
      rw [acquireLock]
      simp at hok
      rw [hok]
      simp
  | succ m ih =>
    intro a fuel hblock hok hfuel
    cases fuel with
    | zero => omega
    | succ n =>
      rw [acquireLock]
      have h0 : flock a = .wouldblock := by
        have := hblock 0 (by omega)
        simpa using this
      rw [h0]
      simp only [Bool.false_eq_true, if_false, ite_false]
      have hok' : flock (a + 1 + m) = .ok := by
        have : a + 1 + m = a + (m + 1) := by omega
        rw [this]; exact hok
      have hblock' : ∀ k, k < m → flock (a + 1 + k) = .wouldblock := by
        intro k hk
        have : a + 1 + k = a + (k + 1) := by omega
        rw [this]; exact hblock (k + 1) (by omega)
      have hres := ih (a + 1) n hblock' hok' (by omega)
      have hsh : a + 1 + m = a + (m + 1) := by omega
      rw [hsh] at hres
      exact hres

/-- C4: under the nonblocking flag, a would-block lock outcome makes the
client return the contention error at once with no frame data written; under
the blocking flag the client never returns a contention error and, when the
first `j` attempts would block and attempt `j` acquires the lock, it keeps
retrying until it acquires the lock at attempt `j`. -/
theorem client_lock_contention :
    (∀ (flock : Nat → FlockRes) (fails : Nat → Bool) (arg0 : String) (rest : List String)
        (cbPresent : Bool) (so se sa soa sea : String) (fuel : Nat),
      flock 0 = .wouldblock → 0 < fuel →
      clientWrite flock true fails arg0 rest cbPresent so se sa soa sea fuel
        = some ([], some .contended))
    ∧ (∀ (flock : Nat → FlockRes) (fails : Nat → Bool) (arg0 : String) (rest : List String)
        (cbPresent : Bool) (so se sa soa sea : String) (fuel : Nat) (w : List String),
      clientWrite flock false fails arg0 rest cbPresent so se sa soa sea fuel
        ≠ some (w, some .contended))
    ∧ (∀ (flock : Nat → FlockRes) (j fuel : Nat),
      (∀ k, k < j → flock k = .wouldblock) → flock j = .ok → j < fuel →
      acquireLock flock false 0 fuel = some (.ok j)) := by
  refine ⟨?_, ?_, ?_⟩
  · intro flock fails arg0 rest cb so se sa soa sea fuel hwb hfuel
    cases fuel with
    | zero => omega
    | succ n =>
      rw [clientWrite, acquireLock, hwb]
      simp
  · intro flock fails arg0 rest cb so se sa soa sea fuel w h
    rw [clientWrite] at h
    cases hacq : acquireLock flock false 0 fuel with
    | none => rw [hacq] at h; exact Option.noConfusion h
    | some r =>
      cases r with
      | error e =>
        rw [hacq] at h
        simp at h
        obtain ⟨-, he⟩ := h
        subst he
        exact acquireLock_blocking_ne_contended flock fuel 0 hacq
      | ok a =>
        rw [hacq] at h
        simp at h
  · intro flock j fuel hblock hok hfuel
    have := acquireLock_retries flock j 0 fuel (by simpa using hblock) (by simpa using hok) hfuel
    simpa using this

/-- Witness for C4: concrete lock-outcome traces for each conjunct. -/
theorem client_lock_contention_witness :
    ((fun _ => FlockRes.wouldblock) 0 = FlockRes.wouldblock ∧ 0 < 1 ∧
      clientWrite (fun _ => FlockRes.wouldblock) true (fun _ => false) "a" [] false
          "" "" "" "" "" 1 = some ([], some .contended)) ∧
    (clientWrite (fun k => if k < 2 then FlockRes.wouldblock else FlockRes.ok) false
        (fun _ => false) "a" [] false "" "" "" "" "" 5
      ≠ some (["x"], some .contended)) ∧
    ((∀ k, k < 2 → (fun k => if k < 2 then FlockRes.wouldblock else FlockRes.ok) k
        = FlockRes.wouldblock) ∧
      acquireLock (fun k => if k < 2 then FlockRes.wouldblock else FlockRes.ok) false 0 3
        = some (.ok 2)) :=
  ⟨⟨rfl, by decide,
      client_lock_contention.1 (fun _ => FlockRes.wouldblock) (fun _ => false) "a" [] false
        "" "" "" "" "" 1 rfl (by decide)⟩,
    client_lock_contention.2.1 (fun k => if k < 2 then FlockRes.wouldblock else FlockRes.ok)
      (fun _ => false) "a" [] false "" "" "" "" "" 5 ["x"],
    by decide,
    client_lock_contention.2.2 (fun k => if k < 2 then FlockRes.wouldblock else FlockRes.ok)
      2 3 (by decide) (by decide) (by decide)⟩

/-! ## Cgroup configuration renderer (cgroups.go) -/

/-- `GetCGroupKeys` (cgroups.go): the closed allow-list of LXC configuration
keys, in rendering order. -/
def GetCGroupKeys : List String :=
  ["lxc.utsname",
   "lxc.tty",
   "lxc.pts",
   "lxc.devttydir",
   "lxc.rootfs",
   "lxc.rootfs.mount",
   "lxc.mount",
   "lxc.arch",
   "lxc.cap.drop",
   "lxc.pivotdir",
   "lxc.network.type",
   "lxc.network.flags",
   "lxc.network.name",
   "lxc.network.link",
   "lxc.network.macvlan.mode",
   "lxc.network.hwaddr",
   "lxc.network.ipv4",
   "lxc.network.ipv4.gateway",
   "lxc.network.ipv6",
   "lxc.network.ipv6.gateway",
   "lxc.network.vlan.id",
   "lxc.network.mtu",
   "lxc.network.script.up",
   "lxc.network.veth.pair",
   "lxc.cgroup.devices.deny",
   "lxc.cgroup.devices.allow",
   "lxc.cgroup.cpu.shares",
   "lxc.cgroup.memory.force_empty",
   "lxc.cgroup.memory.limit_in_bytes",
   "lxc.cgroup.memory.memsw.limit_in_bytes",
   "lxc.cgroup.memory.move_charge_at_immigrate",
   "lxc.cgroup.memory.oom_control",
   "lxc.cgroup.memory.soft_limit_in_bytes",
   "lxc.cgroup.memory.swappiness",
   "lxc.cgroup.memory.usage_in_bytes",
   "lxc.cgroup.memory.use_hierarchy",
   "lxc.cgroup.cpuset.cpu_exclusive",
   "lxc.cgroup.cpuset.cpus",
   "lxc.cgroup.cpuset.mem_exclusive",
   "lxc.cgroup.cpuset.mem_hardwall",
   "lxc.cgroup.cpuset.memory_migrate",
   "lxc.cgroup.cpuset.memory_spread_page",
   "lxc.cgroup.cpuset.memory_spread_slab",
   "lxc.cgroup.cpuset.mems",
   "lxc.cgroup.cpuset.sched_load_balance",
   "lxc.cgroup.cpuset.sched_relax_domain_level",
   "lxc.cgroup.blkio.reset_stats",
   "lxc.cgroup.blkio.sectors",
   "lxc.cgroup.blkio.throttle.read_bps_device",
   "lxc.cgroup.blkio.throttle.read_iops_device",
   "lxc.cgroup.blkio.throttle.write_bps_device",
   "lxc.cgroup.blkio.throttle.write_iops_device",
   "lxc.cgroup.blkio.weight",
   "lxc.cgroup.blkio.weight_device"]

/-- `CgroupInfo` (cgroups.go): a Go `map[string][]string`, modelled as an
association list; a run of the program corresponds to a list whose keys are
distinct, one list per map iteration order. -/
abbrev CgroupInfo := List (String × List String)

/-- The inner loop of `GetCgroupInfoBytes`: append one `key = value` line
per value to the byte buffer. -/
def renderValues (key : String) : List String → List Char → List Char
  | [], buf => buf
  | v :: vs, buf => renderValues key vs (buf ++ (key ++ " = " ++ v ++ "\n").data)

/-- The outer loop of `GetCgroupInfoBytes`: iterate the allow-list in order;
an absent key (Go `info[key] == nil`) contributes nothing. -/
def renderKeys (info : CgroupInfo) : List String → List Char → List Char
  | [], buf => buf
  | k :: ks, buf =>
    match info.lookup k with
    | none => renderKeys info ks buf
    | some vs => renderKeys info ks (renderValues k vs buf)

/-- `GetCgroupInfoBytes` (cgroups.go lines 735-753): reject the first key (in
map iteration order) outside the allow-list, otherwise render the buffer in
allow-list order. -/
def GetCgroupInfoBytes (info : CgroupInfo) : Except String (List Char) :=
  match info.find? (fun p => !(GetCGroupKeys.contains p.1)) with
  | some p => .error ("invalid lxc configuration key: " ++ p.1)
  | none => .ok (renderKeys info GetCGroupKeys [])

lemma renderValues_eq (key : String) (vs : List String) :
    ∀ buf : List Char,
      renderValues key vs buf =
        buf ++ (vs.map (fun v => (key ++ " = " ++ v ++ "\n").data)).flatten := by
  induction vs with
  | nil => intro buf; simp [renderValues]
  | cons v rest ih =>
    intro buf
    simp [renderValues, ih, List.append_assoc]

lemma renderKeys_eq (info : CgroupInfo) (ks : List String) :
    ∀ buf : List Char,
      renderKeys info ks buf =
        buf ++ (ks.map (fun k =>
          (((info.lookup k).getD []).map (fun v => (k ++ " = " ++ v ++ "\n").data)).flatten)).flatten := by
  induction ks with
  | nil => intro buf; simp [renderKeys]
  | cons k rest ih =>
    intro buf
    cases hlk : info.lookup k with
    | none => simp [renderKeys, hlk, ih]
    | some vs => simp [renderKeys, hlk, ih, renderValues_eq, List.append_assoc]

/-- C6: `GetCgroupInfoBytes` fails iff some key of the mapping is outside the
allow-list; when every key is in the allow-list it emits, in allow-list
order, one `key = value` line per value of each present key and nothing
else. -/
theorem getCgroupInfoBytes_spec :
    (∀ info : CgroupInfo,
        (∃ e, GetCgroupInfoBytes info = .error e) ↔ ∃ p ∈ info, p.1 ∉ GetCGroupKeys)
    ∧ (∀ info : CgroupInfo, (∀ p ∈ info, p.1 ∈ GetCGroupKeys) →
        GetCgroupInfoBytes info =
          .ok ((GetCGroupKeys.map (fun k =>
            (((info.lookup k).getD []).map
              (fun v => (k ++ " = " ++ v ++ "\n").data)).flatten)).flatten)) := by
  constructor
  · intro info
    unfold GetCgroupInfoBytes
    cases hfind : info.find? (fun p => !(GetCGroupKeys.contains p.1)) with
    | none =>
      simp only [hfind]
      constructor
      · rintro ⟨e, he⟩
        exact absurd he (by simp)
      · rintro ⟨p, hp, hnk⟩
        have hnp := List.find?_eq_none.mp hfind p hp
        simp at hnp
        exact absurd hnp hnk
    | some p =>
      simp only [hfind]
      constructor
      · intro _
        refine ⟨p, List.mem_of_find?_eq_some hfind, ?_⟩
        have hp := List.find?_some hfind
        simpa using hp
      · intro _
        exact ⟨_, rfl⟩
  · intro info hall
    have hfind : info.find? (fun p => !(GetCGroupKeys.contains p.1)) = none := by
      rw [List.find?_eq_none]
      intro p hp
      simp [hall p hp]
    unfold GetCgroupInfoBytes
    rw [hfind, renderKeys_eq]
    simp

/-- Witness for C6: a singleton in-allow-list mapping renders to its lines. -/
theorem getCgroupInfoBytes_spec_witness :
    (∀ p ∈ ([("lxc.tty", ["4"])] : CgroupInfo), p.1 ∈ GetCGroupKeys) ∧
    GetCgroupInfoBytes [("lxc.tty", ["4"])] =
      .ok ((GetCGroupKeys.map (fun k =>
        (((([(("lxc.tty" : String), ["4"])] : CgroupInfo).lookup k).getD []).map
          (fun v => (k ++ " = " ++ v ++ "\n").data)).flatten)).flatten) :=
  ⟨by decide, getCgroupInfoBytes_spec.2 _ (by decide)⟩

lemma lookup_eq_some_of_mem :
    ∀ {l : CgroupInfo} {a : String} {b : List String},
      (l.map Prod.fst).Nodup → (a, b) ∈ l → l.lookup a = some b := by
  intro l
  induction l with
  | nil => intro a b _ h; simp at h
  | cons p rest ih =>
    intro a b nd h
    obtain ⟨k, v⟩ := p
    simp only [List.map_cons, List.nodup_cons] at nd
    rcases List.mem_cons.mp h with heq | hmem
    · injection heq with h1 h2
      subst h1; subst h2
      simp [List.lookup]
    · have hka : (a == k) = false := by
        rw [beq_eq_false_iff_ne]
        intro hak
        subst hak
        exact nd.1 (List.mem_map.mpr ⟨(a, b), hmem, rfl⟩)
      simp [List.lookup, hka, ih nd.2 hmem]

lemma mem_of_lookup_eq_some :
    ∀ {l : CgroupInfo} {a : String} {b : List String},
      l.lookup a = some b → (a, b) ∈ l := by
  intro l
  induction l with
  | nil => intro a b h; simp [List.lookup] at h
  | cons p rest ih =>
    intro a b h
    obtain ⟨k, v⟩ := p
    by_cases hak : (a == k) = true
    · rw [List.lookup, hak] at h
      injection h with h1
      have hk : a = k := beq_iff_eq.mp hak
      subst hk; subst h1
      exact List.mem_cons_self _ _
    · have hak' : (a == k) = false := by
        cases hx : (a == k)
        · rfl
        · exact absurd hx hak
      rw [List.lookup, hak'] at h
      exact List.mem_cons_of_mem _ (ih h)

lemma lookup_eq_none_iff :
    ∀ {l : CgroupInfo} {a : String},
      l.lookup a = none ↔ a ∉ l.map Prod.fst := by
  intro l
  induction l with
  | nil => intro a; simp [List.lookup]
  | cons p rest ih =>
    intro a
    obtain ⟨k, v⟩ := p
    by_cases hak : (a == k) = true
    · have hk : a = k := beq_iff_eq.mp hak
      subst hk
      simp [List.lookup, hak]
    · have hak' : (a == k) = false := by
        cases hx : (a == k)
        · rfl
        · exact absurd hx hak
      have hne : a ≠ k := beq_eq_false_iff_ne.mp hak'
      simp [List.lookup, hak', ih, hne]

/-- Two association lists that are permutations of each other with distinct
keys have identical lookups. -/
lemma lookup_perm {l₁ l₂ : CgroupInfo} (h : l₁.Perm l₂)
    (nd : (l₁.map Prod.fst).Nodup) (a : String) :
    l₁.lookup a = l₂.lookup a := by
  have nd₂ : (l₂.map Prod.fst).Nodup := ((h.map Prod.fst).nodup_iff).mp nd
  cases hl : l₁.lookup a with
  | none =>
    rw [eq_comm, lookup_eq_none_iff]
    rw [lookup_eq_none_iff] at hl
    intro hmem
    exact hl (((h.map Prod.fst).mem_iff).mpr hmem)
  | some b =>
    have hmem := mem_of_lookup_eq_some hl
    exact (lookup_eq_some_of_mem nd₂ (h.mem_iff.mp hmem)).symm

lemma renderKeys_congr (info₁ info₂ : CgroupInfo)
    (h : ∀ a, info₁.lookup a = info₂.lookup a) (ks : List String) :
    ∀ buf : List Char, renderKeys info₁ ks buf = renderKeys info₂ ks buf := by
  induction ks with
  | nil => intro buf; rfl
  | cons k rest ih =>
    intro buf
    rw [renderKeys, renderKeys, ← h k]
    cases info₁.lookup k with
    | none => exact ih buf
    | some vs => exact ih _

/-- C7: the config renderer is deterministic: for two association-list
representations of the same key→values map (permutations of one another,
with distinct keys), `GetCgroupInfoBytes` yields the same outcome — the same
rendered bytes on success, and failure on the same inputs. -/
theorem getCgroupInfoBytes_deterministic :
    ∀ info₁ info₂ : CgroupInfo, info₁.Perm info₂ → (info₁.map Prod.fst).Nodup →
      (GetCgroupInfoBytes info₁).toOption = (GetCgroupInfoBytes info₂).toOption := by
  intro info₁ info₂ hperm nd
  unfold GetCgroupInfoBytes
  cases hf1 : info₁.find? (fun p => !(GetCGroupKeys.contains p.1)) with
  | some p =>
    have hpa := List.find?_some hf1
    have hmem := List.mem_of_find?_eq_some hf1
    have hex : (info₂.find? (fun q => !(GetCGroupKeys.contains q.1))).isSome := by
      rw [List.find?_isSome]
      exact ⟨p, hperm.mem_iff.mp hmem, hpa⟩
    obtain ⟨q, hq⟩ := Option.isSome_iff_exists.mp hex
    rw [hq]
    simp [Except.toOption]
  | none =>
    have hn2 : info₂.find? (fun p => !(GetCGroupKeys.contains p.1)) = none := by
      rw [List.find?_eq_none]
      intro p hp
      exact List.find?_eq_none.mp hf1 p (hperm.mem_iff.mpr hp)
    rw [hn2]
    simp only [Except.toOption]
    rw [renderKeys_congr info₁ info₂ (lookup_perm hperm nd) GetCGroupKeys []]

/-- Witness for C7: two orderings of a two-key mapping render identically. -/
theorem getCgroupInfoBytes_deterministic_witness :
    (([("lxc.tty", ["4"]), ("lxc.pts", ["1024"])] : CgroupInfo).Perm
        [("lxc.pts", ["1024"]), ("lxc.tty", ["4"])] ∧
      (([("lxc.tty", ["4"]), ("lxc.pts", ["1024"])] : CgroupInfo).map Prod.fst).Nodup) ∧
    (GetCgroupInfoBytes [("lxc.tty", ["4"]), ("lxc.pts", ["1024"])]).toOption =
      (GetCgroupInfoBytes [("lxc.pts", ["1024"]), ("lxc.tty", ["4"])]).toOption :=
  ⟨⟨List.Perm.swap _ _ _, by decide⟩,
    getCgroupInfoBytes_deterministic _ _ (List.Perm.swap _ _ _) (by decide)⟩

/-! ## Container lifecycle (container.go) -/

/-- Model of Go `path.Join(a, b)` for the argument shapes used in this
repository: components without `.`/`..` segments, `a` not ending in a slash,
`b` possibly carrying a leading slash that `path.Clean` collapses. -/
def pathJoin (a b : String) : String :=
  if a = "" then b
  else if b = "" then a
  else if b.data.head? = some '/' then a ++ b
  else a ++ "/" ++ b

/-- The pathname fields of the `Container` structure (container.go).  The
`image_set`, `Cgroup_info` and resource-limit fields play no role in the
embedded operations and are omitted. -/
structure GoContainer where
  name : String
  cdir : String
  meta_dir : String
  rootfs : String
  private_dir : String
  config_pathname : String
  fstab_pathname : String
deriving Repr, DecidableEq

/-- `NewContainerFromDefaultCache` (container.go): the directory layout
under `<containers_path>/<container_name>`. -/
def NewContainerFromDefaultCache (container_name containers_path : String) : GoContainer :=
  let container_dir := pathJoin containers_path container_name
  { name := container_name
    cdir := container_dir
    meta_dir := pathJoin container_dir "meta"
    rootfs := pathJoin container_dir "rootfs"
    private_dir := pathJoin container_dir "private-data"
    config_pathname := pathJoin container_dir "config"
    fstab_pathname := pathJoin container_dir "fstab" }

/-- The filesystem as seen through the probes of util.go: `DirExists` and
`FileExists` (`FileExists` is a bare `stat` success, so it holds for
directories too). -/
structure FS where
  dirExists : String → Bool
  fileExists : String → Bool

/-- `GetHomeDirectory` (container.go lines 199-204). -/
def GetHomeDirectory (user : String) : String :=
  if user = "root" then "/root" else "/home/" ++ user

/-- Outcomes of `ExecuteImpl` visible in the embedding. -/
inductive ExecOutcome
  | homeMissingErr (msg : String)
  | nilDerefPanic
  | dispatch (uid gid : Nat) (blocked : Bool)
deriving Repr, DecidableEq

/-- `ExecuteImpl` (container.go lines 535-560).  For a user other than
`root`/`web` the source builds `errors.New("users other than web or root are
not supported.")` but discards the value: `fifo_command` remains nil and the
subsequent method call dereferences it, which is a nil-pointer panic —
modelled as `nilDerefPanic`.  The successful path is abstracted to the
(uid, gid, blocked) triple handed to the FIFO client. -/
def ExecuteImpl (fs : FS) (c : GoContainer) (user : String) (blocked : Bool) : ExecOutcome :=
  let home_dir := GetHomeDirectory user
  let home_dir_on_host := pathJoin c.rootfs home_dir
  if ¬ fs.dirExists home_dir_on_host then
    .homeMissingErr ("User " ++ user ++ " home directory " ++ home_dir ++ " on container "
      ++ c.name ++ " does not exist, full path " ++ home_dir_on_host)
  else if user = "root" then .dispatch 0 0 blocked
  else if user = "web" then .dispatch 1000 1000 blocked
  else .nilDerefPanic

/-- `IsMounted` (container.go lines 566-568). -/
def IsMounted (fs : FS) (c : GoContainer) : Bool :=
  fs.dirExists (pathJoin c.rootfs "/etc")

/-- `IsRunning` (container.go lines 574-579). -/
def IsRunning (fs : FS) (c : GoContainer) : Bool :=
  fs.dirExists (pathJoin "/cgroup/lxc" c.name)

/-- `IsCreated` (container.go lines 583-589). -/
def IsCreated (fs : FS) (c : GoContainer) : Bool :=
  fs.dirExists c.rootfs && fs.dirExists c.meta_dir && fs.dirExists c.private_dir &&
  fs.fileExists c.config_pathname && fs.fileExists c.fstab_pathname

/-- C8 (code bug): the home directory resolves to `/root` for `root` and
`/home/<user>` otherwise, and a missing home directory yields the
home-missing error; but for a user that is neither `root` nor `web` whose
home directory exists, `ExecuteImpl` does not return the no-such-user error —
the `errors.New` value is discarded and the call proceeds into a nil-pointer
dereference. -/
theorem executeImpl_unknown_user_behavior :
    GetHomeDirectory "root" = "/root"
    ∧ GetHomeDirectory "alice" = "/home/alice"
    ∧ (∃ m, ExecuteImpl ⟨fun _ => false, fun _ => false⟩
        (NewContainerFromDefaultCache "c" "/web") "alice" false = .homeMissingErr m)
    ∧ ExecuteImpl ⟨fun _ => true, fun _ => false⟩
        (NewContainerFromDefaultCache "c" "/web") "alice" false = .nilDerefPanic := by
  refine ⟨rfl, rfl, ⟨_, rfl⟩, rfl⟩

/-- C9 counterexample: a filesystem state in which `<rootfs>/etc` is a
directory but the meta directory is absent satisfies `IsMounted` and not
`IsCreated`, refuting `IsMounted → IsCreated` over arbitrary filesystem
states (and the same state refutes `IsRunning → IsMounted` with the cgroup
directory present instead). -/
theorem lifecycle_ordering_counterexample :
    (IsMounted ⟨fun p => p == "/web/c/rootfs/etc", fun _ => false⟩
        (NewContainerFromDefaultCache "c" "/web") = true
      ∧ IsCreated ⟨fun p => p == "/web/c/rootfs/etc", fun _ => false⟩
        (NewContainerFromDefaultCache "c" "/web") = false)
    ∧ (IsRunning ⟨fun p => p == "/cgroup/lxc/c", fun _ => false⟩
        (NewContainerFromDefaultCache "c" "/web") = true
      ∧ IsMounted ⟨fun p => p == "/cgroup/lxc/c", fun _ => false⟩
        (NewContainerFromDefaultCache "c" "/web") = false) := by
  refine ⟨⟨?_, ?_⟩, ?_, ?_⟩ <;> decide

/-- C9 (amended): `IsCreated` implies that all five component paths exist;
`IsMounted` and `IsRunning` are independent probes — `IsMounted` holds iff
`<rootfs>/etc` is a directory and `IsRunning` iff `/cgroup/lxc/<name>` is a
directory — and neither implies the predicates below it for arbitrary
filesystem states. -/
theorem lifecycle_predicates :
    ∀ (fs : FS) (c : GoContainer),
      (IsCreated fs c = true →
        fs.dirExists c.rootfs = true ∧ fs.dirExists c.meta_dir = true ∧
        fs.dirExists c.private_dir = true ∧ fs.fileExists c.config_pathname = true ∧
        fs.fileExists c.fstab_pathname = true)
      ∧ (IsMounted fs c = true ↔ fs.dirExists (pathJoin c.rootfs "/etc") = true)
      ∧ (IsRunning fs c = true ↔ fs.dirExists (pathJoin "/cgroup/lxc" c.name) = true) := by
  intro fs c
  refine ⟨?_, Iff.rfl, Iff.rfl⟩
  intro h
  simp only [IsCreated, Bool.and_eq_true] at h
  exact ⟨h.1.1.1.1, h.1.1.1.2, h.1.1.2, h.1.2, h.2⟩

/-- Witness for C9 (amended): a fully-populated filesystem state. -/
theorem lifecycle_predicates_witness :
    IsCreated ⟨fun _ => true, fun _ => true⟩ (NewContainerFromDefaultCache "c" "/web") = true ∧
    ((fun (_ : String) => true) (NewContainerFromDefaultCache "c" "/web").rootfs = true ∧
      (fun (_ : String) => true) (NewContainerFromDefaultCache "c" "/web").meta_dir = true ∧
      (fun (_ : String) => true) (NewContainerFromDefaultCache "c" "/web").private_dir = true ∧
      (fun (_ : String) => true) (NewContainerFromDefaultCache "c" "/web").config_pathname = true ∧
      (fun (_ : String) => true) (NewContainerFromDefaultCache "c" "/web").fstab_pathname = true) :=
  ⟨by decide,
    (lifecycle_predicates ⟨fun _ => true, fun _ => true⟩
      (NewContainerFromDefaultCache "c" "/web")).1 (by decide)⟩

/-! ## Resource limits (limits.go) -/

/-- `RLIMIT_UNCHANGED` (limits.go): sentinel meaning "omit this field". -/
def RLIMIT_UNCHANGED : Int := -2

/-- `ResourceLimits` (limits.go): the fifteen rlimit fields. -/
structure ResourceLimits where
  cpu : Int
  fsize : Int
  data : Int
  stack : Int
  core : Int
  rss : Int
  nofile : Int
  as : Int
  nproc : Int
  memproc : Int
  locks : Int
  sigpending : Int
  msgqueue : Int
  nice : Int
  rtprio : Int
deriving Repr, DecidableEq

/-- `NewResourceLimits` (limits.go): every field `RLIMIT_UNCHANGED`. -/
def NewResourceLimits : ResourceLimits :=
  ⟨RLIMIT_UNCHANGED, RLIMIT_UNCHANGED, RLIMIT_UNCHANGED, RLIMIT_UNCHANGED,
   RLIMIT_UNCHANGED, RLIMIT_UNCHANGED, RLIMIT_UNCHANGED, RLIMIT_UNCHANGED,
   RLIMIT_UNCHANGED, RLIMIT_UNCHANGED, RLIMIT_UNCHANGED, RLIMIT_UNCHANGED,
   RLIMIT_UNCHANGED, RLIMIT_UNCHANGED, RLIMIT_UNCHANGED⟩

/-- `ResourceLimitsToIexecArgString` (limits.go lines 512-640): the output
buffer is `make([]byte, 1024)` — 1024 zero bytes — and every present field
appends ` --rlimit-<field>-<soft|hard> <n>` to it; the result is the whole
buffer as a byte string.  Bytes are modelled as `Char`s, the NUL byte as
`Char.ofNat 0`. -/
def ResourceLimitsToIexecArgString (soft hard : Option ResourceLimits) : List Char :=
  let buffer : List Char := List.replicate 1024 (Char.ofNat 0)
  let buffer := match soft with
    | none => buffer
    | some s =>
      let buffer := if s.cpu ≠ RLIMIT_UNCHANGED then
        buffer ++ (" --rlimit-cpu-soft " ++ toString s.cpu).data else buffer
      let buffer := if s.fsize ≠ RLIMIT_UNCHANGED then
        buffer ++ (" --rlimit-fsize-soft " ++ toString s.fsize).data else buffer
      let buffer := if s.data ≠ RLIMIT_UNCHANGED then
        buffer ++ (" --rlimit-data-soft " ++ toString s.data).data else buffer
      let buffer := if s.stack ≠ RLIMIT_UNCHANGED then
        buffer ++ (" --rlimit-stack-soft " ++ toString s.stack).data else buffer
      let buffer := if s.core ≠ RLIMIT_UNCHANGED then
        buffer ++ (" --rlimit-core-soft " ++ toString s.core).data else buffer
      let buffer := if s.rss ≠ RLIMIT_UNCHANGED then
        buffer ++ (" --rlimit-rss-soft " ++ toString s.rss).data else buffer
      let buffer := if s.nofile ≠ RLIMIT_UNCHANGED then
        buffer ++ (" --rlimit-nofile-soft " ++ toString s.nofile).data else buffer
      let buffer := if s.as ≠ RLIMIT_UNCHANGED then
        buffer ++ (" --rlimit-as-soft " ++ toString s.as).data else buffer
      let buffer := if s.nproc ≠ RLIMIT_UNCHANGED then
        buffer ++ (" --rlimit-nproc-soft " ++ toString s.nproc).data else buffer
      let buffer := if s.memproc ≠ RLIMIT_UNCHANGED then
        buffer ++ (" --rlimit-memproc-soft " ++ toString s.memproc).data else buffer
      let buffer := if s.locks ≠ RLIMIT_UNCHANGED then
        buffer ++ (" --rlimit-locks-soft " ++ toString s.locks).data else buffer
      let buffer := if s.sigpending ≠ RLIMIT_UNCHANGED then
        buffer ++ (" --rlimit-sigpending-soft " ++ toString s.sigpending).data else buffer
      let buffer := if s.msgqueue ≠ RLIMIT_UNCHANGED then
        buffer ++ (" --rlimit-msgqueue-soft " ++ toString s.msgqueue).data else buffer
      let buffer := if s.nice ≠ RLIMIT_UNCHANGED then
        buffer ++ (" --rlimit-nice-soft " ++ toString s.nice).data else buffer
      let buffer := if s.rtprio ≠ RLIMIT_UNCHANGED then
        buffer ++ (" --rlimit-rtprio-soft " ++ toString s.rtprio).data else buffer
      buffer
  let buffer := match hard with
    | none => buffer
    | some h =>
      let buffer := if h.cpu ≠ RLIMIT_UNCHANGED then
        buffer ++ (" --rlimit-cpu-hard " ++ toString h.cpu).data else buffer
      let buffer := if h.fsize ≠ RLIMIT_UNCHANGED then
        buffer ++ (" --rlimit-fsize-hard " ++ toString h.fsize).data else buffer
      let buffer := if h.data ≠ RLIMIT_UNCHANGED then
        buffer ++ (" --rlimit-data-hard " ++ toString h.data).data else buffer
      let buffer := if h.stack ≠ RLIMIT_UNCHANGED then
        buffer ++ (" --rlimit-stack-hard " ++ toString h.stack).data else buffer
      let buffer := if h.core ≠ RLIMIT_UNCHANGED then
        buffer ++ (" --rlimit-core-hard " ++ toString h.core).data else buffer
      let buffer := if h.rss ≠ RLIMIT_UNCHANGED then
        buffer ++ (" --rlimit-rss-hard " ++ toString h.rss).data else buffer
      let buffer := if h.nofile ≠ RLIMIT_UNCHANGED then
        buffer ++ (" --rlimit-nofile-hard " ++ toString h.nofile).data else buffer
      let buffer := if h.as ≠ RLIMIT_UNCHANGED then
        buffer ++ (" --rlimit-as-hard " ++ toString h.as).data else buffer
      let buffer := if h.nproc ≠ RLIMIT_UNCHANGED then
        buffer ++ (" --rlimit-nproc-hard " ++ toString h.nproc).data else buffer
      let buffer := if h.memproc ≠ RLIMIT_UNCHANGED then
        buffer ++ (" --rlimit-memproc-hard " ++ toString h.memproc).data else buffer
      let buffer := if h.locks ≠ RLIMIT_UNCHANGED then
        buffer ++ (" --rlimit-locks-hard " ++ toString h.locks).data else buffer
      let buffer := if h.sigpending ≠ RLIMIT_UNCHANGED then
        buffer ++ (" --rlimit-sigpending-hard " ++ toString h.sigpending).data else buffer
      let buffer := if h.msgqueue ≠ RLIMIT_UNCHANGED then
        buffer ++ (" --rlimit-msgqueue-hard " ++ toString h.msgqueue).data else buffer
      let buffer := if h.nice ≠ RLIMIT_UNCHANGED then
        buffer ++ (" --rlimit-nice-hard " ++ toString h.nice).data else buffer
      let buffer := if h.rtprio ≠ RLIMIT_UNCHANGED then
        buffer ++ (" --rlimit-rtprio-hard " ++ toString h.rtprio).data else buffer
      buffer
  buffer

lemma append_ite (c : Prop) [Decidable c] (b x : List Char) :
    (if c then b ++ x else b) = b ++ (if c then x else []) := by
  by_cases h : c <;> simp [h]

set_option maxRecDepth 4000 in
lemma resourceLimits_nul_pad (soft hard : Option ResourceLimits) :
    ∃ t, ResourceLimitsToIexecArgString soft hard =
      List.replicate 1024 (Char.ofNat 0) ++ t := by
  unfold ResourceLimitsToIexecArgString
  cases soft <;> cases hard <;>
    first
      | (simp only [append_ite]
         simp only [List.append_assoc]
         exact ⟨_, rfl⟩)
      | (simp only [append_ite]
         exact ⟨_, rfl⟩)

set_option maxRecDepth 4000 in
/-- C10: the rlimit argument string always begins with 1024 NUL bytes (the
output buffer is allocated with length 1024, not capacity 1024); with both
records nil, or with every field `RLIMIT_UNCHANGED`, it is exactly the 1024
NUL bytes; it is never empty. -/
theorem resourceLimitsToIexecArgString_nul_pad :
    (∀ soft hard : Option ResourceLimits,
        (ResourceLimitsToIexecArgString soft hard).take 1024 =
          List.replicate 1024 (Char.ofNat 0))
    ∧ ResourceLimitsToIexecArgString none none = List.replicate 1024 (Char.ofNat 0)
    ∧ ResourceLimitsToIexecArgString (some NewResourceLimits) (some NewResourceLimits) =
        List.replicate 1024 (Char.ofNat 0)
    ∧ (∀ soft hard : Option ResourceLimits,
        ResourceLimitsToIexecArgString soft hard ≠ []) := by
  refine ⟨?_, ?_, ?_, ?_⟩
  · intro soft hard
    obtain ⟨t, ht⟩ := resourceLimits_nul_pad soft hard
    rw [ht, List.take_left' (List.length_replicate 1024 (Char.ofNat 0))]
  · rfl
  · decide
  · intro soft hard h
    obtain ⟨t, ht⟩ := resourceLimits_nul_pad soft hard
    rw [ht] at h
    simp at h

/-- Witness for C10 at the nil/nil instance. -/
theorem resourceLimitsToIexecArgString_nul_pad_witness :
    (ResourceLimitsToIexecArgString none none).take 1024 =
        List.replicate 1024 (Char.ofNat 0) ∧
    ResourceLimitsToIexecArgString none none ≠ [] :=
  ⟨resourceLimitsToIexecArgString_nul_pad.1 none none,
    resourceLimitsToIexecArgString_nul_pad.2.2.2 none none⟩
